import Mathlib

/-!
Verification of the job-control subsystem of the `smallsh` shell
(`src/smallsh.c`), via a shallow embedding of its data structures and
control paths into Lean.

Modelling conventions:
* machine integers become `Nat` (pids are positive OS handles, exit
  methods are the raw nonnegative wait-status words);
* the heap-allocated argument vector of `struct CommandLine` becomes a
  `List (Option String)` of length `capacity`, a `none` cell standing
  for a NULL pointer;
* the singly-linked pid list of `struct ChildrenPids` becomes a
  `List Link` (the `size` field is kept separate, exactly as in C);
* every `printf`/`write` the shell performs is recorded as a `Notice`
  value, and the signal-blocking protocol around the foreground wait is
  recorded as a list of `Event`s;
* `waitpid(pid, ..., WNOHANG)` and `kill(pid, SIGTERM)` results are
  supplied by oracle functions (`Nat → Option Nat`, `Nat → Bool`);
* the two C loops that are bounded by a monotonically non-increasing
  counter (`checkBGChildren`'s for-loop and `exitHandle`'s while-loop)
  are written with an explicit structural fuel equal to the C bound
  (initial `children->size`, resp. 50); the fuel can run out only at an
  index where the C loop condition is false as well, so the functions
  agree with the C loops on every input.
-/

namespace Smallsh

/-- Text notices printed by the shell (one constructor per printf/write
call site in `smallsh.c` that the verified paths can reach). -/
inductive Notice where
  | bgStarts (pid : Nat)
  | bgFinished (pid : Nat)
  | exitValueZero
  | exitedValue (code : Nat)
  | terminatedBySignal (sig : Nat)
  | errorStr (code : Nat)
  | fgTerminatedBySignal (pid : Nat) (sig : Nat)
  | procTerminatedBySIGTERM (pid : Nat)
  | sucessfullyDeleted
  | errorDeleting
  | exitFailure
  | enterFgOnlyMode
  | exitFgOnlyMode
deriving DecidableEq, Repr

/-- Events of the foreground-wait protocol in `main` (lines 863-879):
blocking SIGTSTP, the `waitpid` call on a specific child, unblocking. -/
inductive Event where
  | blockSIGTSTP
  | waitpidCall (pid : Nat)
  | unblockSIGTSTP
deriving DecidableEq, Repr

/-! ## struct CommandLine (lines 24-93) -/

/-- `struct CommandLine`: a dynamic array of argument strings.  `arr`
models the `char**` block of `capacity` cells; a `none` cell is a NULL
pointer.  The redirection paths are irrelevant to the claims and are
kept as optional strings. -/
structure CommandLine where
  capacity : Nat
  size : Nat
  bg : Nat
  inputFile : Option String
  outputFile : Option String
  arr : List (Option String)
deriving DecidableEq, Repr

/-- `initCommandLine` (lines 45-57): allocate `capacity` cells, all
NULL; size 0, foreground, no redirection. -/
def initCommandLine (capacity : Nat) : CommandLine :=
  { capacity := capacity
    size := 0
    bg := 0
    inputFile := none
    outputFile := none
    arr := List.replicate capacity none }

/-- `addCommandLine` (lines 70-93): if `size == capacity-1`, move to a
zero-initialized block of twice the capacity, copying the first `size`
strings; then store the new string at index `size` and increment
`size`. -/
def addCommandLine (r : CommandLine) (str : String) : CommandLine :=
  let r :=
    if r.size = r.capacity - 1 then
      { r with
        arr := r.arr.take r.size ++ List.replicate (2 * r.capacity - r.size) none
        capacity := 2 * r.capacity }
    else r
  { r with arr := r.arr.set r.size (some str), size := r.size + 1 }

/-! ## The process registry: struct Link / struct ChildrenPids (lines 132-321) -/

/-- `struct Link` (lines 132-138): one registry record. -/
structure Link where
  pidNo : Nat
  command : CommandLine
  builtIn : Nat
deriving DecidableEq, Repr

/-- `struct ChildrenPids` (lines 182-186): the linked list plus its
separately maintained `size` counter. -/
structure ChildrenPids where
  size : Nat
  list : List Link
deriving DecidableEq, Repr

/-- `initChildrenPids` (lines 196-200). -/
def initChildrenPids : ChildrenPids :=
  { size := 0, list := [] }

/-- `addChildrenPids` (lines 215-231): append a new record at the tail
(the C code walks to the last node; when `size == 0` it overwrites the
head pointer) and increment `size`. -/
def addChildrenPids (children : ChildrenPids) (pidNo : Nat)
    (command : CommandLine) (builtIn : Nat) : ChildrenPids :=
  if children.size = 0 then
    { size := children.size + 1, list := [⟨pidNo, command, builtIn⟩] }
  else
    { size := children.size + 1, list := children.list ++ [⟨pidNo, command, builtIn⟩] }

/-- `inChildrenPids` (lines 244-257): 0 immediately when `size == 0`,
else walk the list looking for the pid. -/
def inChildrenPids (children : ChildrenPids) (num : Nat) : Nat :=
  if children.size = 0 then 0
  else if children.list.any (fun l => l.pidNo = num) then 1 else 0

/-- The list-splicing part of `deleteChildrenPids` (lines 277-296):
drop the first node whose pid matches. -/
def removeFirstLink : List Link → Nat → List Link
  | [], _ => []
  | l :: rest, num => if l.pidNo = num then rest else l :: removeFirstLink rest num

/-- `deleteChildrenPids` (lines 272-300): returns the updated registry
and the C function's int result (1 = deleted, 0 = not present). -/
def deleteChildrenPids (children : ChildrenPids) (num : Nat) : ChildrenPids × Nat :=
  if inChildrenPids children num = 0 then (children, 0)
  else ({ size := children.size - 1, list := removeFirstLink children.list num }, 1)

/-- The pids currently stored in the registry list, in order. -/
def livePids (children : ChildrenPids) : List Nat :=
  children.list.map Link.pidNo

/-- The well-formedness the C code maintains: the `size` counter equals
the list length, and no two live records share a pid (§3 invariant of
the spec; the OS never hands out a live pid twice). -/
def Consistent (children : ChildrenPids) : Prop :=
  children.size = children.list.length ∧ (livePids children).Nodup

/-! ## Termination descriptors (decipherExitStatus, lines 659-676)

The raw wait status word is decoded with the glibc macros:
`WIFEXITED(s) = ((s & 0x7f) == 0)`, `WEXITSTATUS(s) = ((s >> 8) & 0xff)`,
`WIFSIGNALED(s) = (((signed char)(((s & 0x7f) + 1) >> 1)) > 0)`, i.e.
`1 ≤ (s & 0x7f) ≤ 126`, and `WTERMSIG(s) = (s & 0x7f)`. -/

def wifexited (status : Nat) : Bool := decide (status % 128 = 0)

def wexitstatus (status : Nat) : Nat := (status / 256) % 256

def wifsignaled (status : Nat) : Bool :=
  decide (1 ≤ status % 128 ∧ status % 128 ≤ 126)

def wtermsig (status : Nat) : Nat := status % 128

/-- The wait-status word a child that exited normally with code `c`
produces (kernel encoding: code in bits 8-15, low 7 bits zero). -/
def exitedWithCode (c : Nat) : Nat := c * 256

/-- The wait-status word a child terminated by signal `s` produces
(kernel encoding: the signal number itself, `1 ≤ s ≤ 126`). -/
def signaledWith (s : Nat) : Nat := s

/-- The four `int*` outputs of `decipherExitStatus`. -/
structure ExitInfo where
  exited : Nat
  exitStatus : Nat
  signaled : Nat
  termSignal : Nat
deriving DecidableEq, Repr

/-- `decipherExitStatus` (lines 659-676).  The C function writes through
its pointers only in the two recognized shapes; otherwise the previous
contents (`info`) survive, which the extra state argument models. -/
def decipherExitStatus (childExitMethod : Nat) (info : ExitInfo) : ExitInfo :=
  if wifexited childExitMethod then
    { exited := 1, exitStatus := wexitstatus childExitMethod,
      signaled := 0, termSignal := 0 }
  else if wifsignaled childExitMethod then
    { signaled := 1, termSignal := wtermsig childExitMethod,
      exited := 0, exitStatus := 0 }
  else info

/-! ## The SIGTSTP handler (parentCatchSIGTSTP, lines 630-645) -/

/-- `parentCatchSIGTSTP` (lines 630-645): flip the global `BGAllowed`
flag and write exactly one of the two fixed notices.  Input is the
current value of `BGAllowed`, output its new value plus the notice. -/
def parentCatchSIGTSTP (bgAllowed : Nat) : Nat × Notice :=
  if bgAllowed = 1 then (0, Notice.enterFgOnlyMode)
  else (1, Notice.exitFgOnlyMode)

/-! ## The background sweep (checkBGChildren, lines 688-737)

`status pid = none` models `waitpid(pid, ..., WNOHANG)` returning 0
(still running); `status pid = some m` models it returning `pid` with
wait status `m`. -/

/-- The body of `checkBGChildren`'s for-loop
(`for (i=0; i < children->size; i++)`, lines 705-735).  The loop
condition re-reads the mutable `children->size` on every iteration,
which is exactly what the `i < children.size` test below does.  The
structural `fuel` is the initial `children->size`: `i` grows by one per
iteration while `children.size` never grows, so the C loop runs at most
`fuel` iterations, and when the fuel hits 0 we have `i ≥` initial size
`≥ children.size`, where the C loop stops as well. -/
def checkLoop (status : Nat → Option Nat) (snapshot : List Nat) :
    Nat → Nat → ChildrenPids → ExitInfo → List Notice → ChildrenPids × List Notice
  | _, 0, children, _, acc => (children, acc)
  | i, fuel + 1, children, info, acc =>
    if i < children.size then
      let pid := snapshot.getD i 0
      match status pid with
      | none => checkLoop status snapshot (i + 1) fuel children info acc
      | some m =>
          let children1 := (deleteChildrenPids children pid).1
          let info1 := decipherExitStatus m info
          let notices :=
            Notice.bgFinished pid ::
              (if info1.exited ≠ 0 then
                (if info1.exitStatus = 0 then [Notice.exitValueZero] else []) ++
                  (if info1.exitStatus ≠ 0 then [Notice.exitedValue info1.exitStatus] else [])
              else if info1.signaled ≠ 0 then
                [Notice.terminatedBySignal info1.termSignal]
              else [])
          checkLoop status snapshot (i + 1) fuel children1 info1 (acc ++ notices)
    else (children, acc)

/-- `checkBGChildren` (lines 688-737): snapshot the pids into an array,
then run the reaping loop.  `info` carries the stale contents of the
`exited`/`exitStatus`/`signaled`/`termSignal` locals of `main`. -/
def checkBGChildren (status : Nat → Option Nat) (children : ChildrenPids)
    (info : ExitInfo) : ChildrenPids × List Notice :=
  checkLoop status (livePids children) 0 children.size children info []

/-! ## The shutdown protocol (exitHandle, lines 512-544)

`killOk pid = true` models `kill(pid, SIGTERM)` returning 0. -/

/-- The body of `exitHandle`'s loop
(`while (children->size != 0 && i < 50)`): the structural fuel is the
remaining attempt budget `50 - i`.  The C code dereferences the head of
the list whenever `size != 0`; an inconsistent registry whose list is
empty while `size != 0` would crash in C, and the `[]` arm below is
never reached from a `Consistent` registry. -/
def exitLoop (killOk : Nat → Bool) :
    Nat → ChildrenPids → List Notice → ChildrenPids × List Notice
  | 0, children, acc => (children, acc)
  | fuel + 1, children, acc =>
    if children.size = 0 then (children, acc)
    else
      match children.list with
      | [] => (children, acc)
      | temp :: _ =>
        if killOk temp.pidNo then
          let r := deleteChildrenPids children temp.pidNo
          let deletedNotice :=
            if r.2 = 0 then Notice.sucessfullyDeleted else Notice.errorDeleting
          exitLoop killOk fuel r.1
            (acc ++ [Notice.procTerminatedBySIGTERM temp.pidNo, deletedNotice])
        else
          exitLoop killOk fuel children (acc ++ [Notice.exitFailure])

/-- `exitHandle` (lines 512-544): at most 50 termination attempts. -/
def exitHandle (killOk : Nat → Bool) (children : ChildrenPids) :
    ChildrenPids × List Notice :=
  exitLoop killOk 50 children []

/-! ## One control-loop iteration for an external command (main, lines 815-905)

For a command classified `external` (`procType == 0`), after the fork
succeeded: resolve the background flag against `BGAllowed`, register
the child, check the capacity bound, then either announce a background
start or perform the foreground wait.  `childExitMethod` is the wait
status the foreground `waitpid` reports (unused on the background
path), `info` the stale decode locals, `lastFG` the current
`lastFGExitMethod`. -/

/-- `MAXCHILDREN` (line 741). -/
def MAXCHILDREN : Nat := 50

/-- Everything one external-command iteration of `main`'s loop produces. -/
structure StepResult where
  bgAllowed : Nat
  children : ChildrenPids
  lastFGExitMethod : Nat
  exitInfo : ExitInfo
  notices : List Notice
  events : List Event
  aborted : Bool
deriving DecidableEq, Repr

/-- The parent-side dispatch of one external command, lines 815-905 of
`main` (the per-line background sweep of line 908 is `checkBGChildren`
above).  Mirrors the source statement by statement: lines 819-826 zero
the `bg` flag when `BGAllowed == 0` (the `procType != 0` arm cannot
fire here, external means `procType == 0`); line 852 registers the
child, passing `commands->bg` as the `builtIn` argument; lines 854-855
abort at `MAXCHILDREN`; lines 857-861 print the start notice when
`bg == 1`; lines 863-905 are the foreground wait protocol when
`bg == 0`. -/
def mainStepExternal (bgAllowed : Nat) (commands : CommandLine) (spawnPid : Nat)
    (childExitMethod : Nat) (children : ChildrenPids) (lastFG : Nat)
    (info : ExitInfo) : StepResult :=
  let cmd := if bgAllowed = 0 then { commands with bg := 0 } else commands
  let children1 := addChildrenPids children spawnPid cmd cmd.bg
  if children1.size = MAXCHILDREN then
    { bgAllowed := bgAllowed, children := children1, lastFGExitMethod := lastFG,
      exitInfo := info, notices := [], events := [], aborted := true }
  else
    let startNotices := if cmd.bg = 1 then [Notice.bgStarts spawnPid] else []
    if cmd.bg = 0 then
      let children2 := (deleteChildrenPids children1 spawnPid).1
      let info1 := decipherExitStatus childExitMethod info
      let fgNotices :=
        if info1.exited ≠ 0 then
          if info1.exitStatus ≠ 0 then [Notice.errorStr info1.exitStatus] else []
        else if info1.signaled ≠ 0 then
          [Notice.fgTerminatedBySignal spawnPid info1.termSignal]
        else []
      { bgAllowed := bgAllowed, children := children2,
        lastFGExitMethod := childExitMethod, exitInfo := info1,
        notices := startNotices ++ fgNotices,
        events := [Event.blockSIGTSTP, Event.waitpidCall spawnPid, Event.unblockSIGTSTP],
        aborted := false }
    else
      { bgAllowed := bgAllowed, children := children1, lastFGExitMethod := lastFG,
        exitInfo := info, notices := startNotices, events := [], aborted := false }

/-! ## Registry operation sequences (for the add/remove algebra) -/

/-- One registry operation. -/
inductive RegOp where
  | add (pid : Nat) (command : CommandLine) (builtIn : Nat)
  | remove (pid : Nat)
deriving DecidableEq

/-- Run a sequence of operations against a registry. -/
def runOps : ChildrenPids → List RegOp → ChildrenPids
  | c, [] => c
  | c, RegOp.add p cmd b :: rest => runOps (addChildrenPids c p cmd b) rest
  | c, RegOp.remove p :: rest => runOps (deleteChildrenPids c p).1 rest

/-- The pids of the add operations, in order. -/
def addPids : List RegOp → List Nat
  | [] => []
  | RegOp.add p _ _ :: rest => p :: addPids rest
  | RegOp.remove _ :: rest => addPids rest

/-- The pids of the removes that succeed (return 1) when the sequence
runs against `c`, in order. -/
def removedPids : ChildrenPids → List RegOp → List Nat
  | _, [] => []
  | c, RegOp.add p cmd b :: rest => removedPids (addChildrenPids c p cmd b) rest
  | c, RegOp.remove p :: rest =>
      let r := deleteChildrenPids c p
      if r.2 = 1 then p :: removedPids r.1 rest else removedPids r.1 rest

/-! ## Notice classifiers for the shutdown protocol -/

/-- Is this the shutdown confirmation notice naming a terminated pid? -/
def isSuccessNotice : Notice → Bool
  | Notice.procTerminatedBySIGTERM _ => true
  | _ => false

/-- Does this notice start a shutdown termination attempt (one is
printed per loop iteration, on success or on failure)? -/
def isAttemptNotice : Notice → Bool
  | Notice.procTerminatedBySIGTERM _ => true
  | Notice.exitFailure => true
  | _ => false

/-- Is this the `"Error deleting info for this process"` notice (the
one `exitHandle` prints when `deleteChildrenPids` returned 1)? -/
def isErrorDeletingNotice : Notice → Bool
  | Notice.errorDeleting => true
  | _ => false

/-- The notices an all-successful shutdown emits for the given pids:
per pid, the SIGTERM confirmation followed by the (inverted) deletion
notice. -/
def successNotices : List Nat → List Notice
  | [] => []
  | p :: rest =>
      Notice.procTerminatedBySIGTERM p :: Notice.errorDeleting :: successNotices rest

/-! ## Helper lemmas about the registry operations -/

theorem addChildrenPids_size (c : ChildrenPids) (p : Nat) (cmd : CommandLine)
    (b : Nat) : (addChildrenPids c p cmd b).size = c.size + 1 := by
  unfold addChildrenPids
  split <;> rfl

theorem livePids_add (c : ChildrenPids) (p : Nat) (cmd : CommandLine) (b : Nat)
    (hc : c.size = c.list.length) :
    livePids (addChildrenPids c p cmd b) = livePids c ++ [p] := by
  unfold addChildrenPids livePids
  split
  · next h0 =>
    have hnil : c.list = [] := List.length_eq_zero.mp (hc.symm.trans h0)
    simp [hnil]
  · simp

theorem list_add (c : ChildrenPids) (p : Nat) (cmd : CommandLine) (b : Nat)
    (hc : c.size = c.list.length) :
    (addChildrenPids c p cmd b).list = c.list ++ [⟨p, cmd, b⟩] := by
  unfold addChildrenPids
  split
  · next h0 =>
    have hnil : c.list = [] := List.length_eq_zero.mp (hc.symm.trans h0)
    simp [hnil]
  · rfl

theorem inChildrenPids_zero (c : ChildrenPids) (p : Nat)
    (hp : p ∉ livePids c) : inChildrenPids c p = 0 := by
  unfold inChildrenPids
  split
  · rfl
  · rw [if_neg]
    intro hany
    rcases List.any_eq_true.mp hany with ⟨l, hl, he⟩
    exact hp (List.mem_map.mpr ⟨l, hl, of_decide_eq_true he⟩)

theorem inChildrenPids_one (c : ChildrenPids) (p : Nat)
    (hc : c.size = c.list.length) (hp : p ∈ livePids c) :
    inChildrenPids c p = 1 := by
  unfold inChildrenPids
  rcases List.mem_map.mp hp with ⟨l, hl, he⟩
  have hne : c.size ≠ 0 := by
    rw [hc]
    intro h0
    rw [List.length_eq_zero.mp h0] at hl
    exact (List.not_mem_nil l) hl
  rw [if_neg hne, if_pos]
  exact List.any_eq_true.mpr ⟨l, hl, decide_eq_true he⟩

theorem removeFirstLink_map (l : List Link) (p : Nat) :
    (removeFirstLink l p).map Link.pidNo = (l.map Link.pidNo).erase p := by
  induction l with
  | nil => rfl
  | cons a rest ih =>
    by_cases h : a.pidNo = p
    · simp [removeFirstLink, h]
    · have hb : ¬(a.pidNo == p) = true := by simpa using h
      simp [removeFirstLink, h, ih, List.erase_cons_tail hb]

theorem removeFirstLink_append_fresh (l : List Link) (x : Link)
    (hp : x.pidNo ∉ l.map Link.pidNo) :
    removeFirstLink (l ++ [x]) x.pidNo = l := by
  induction l with
  | nil => simp [removeFirstLink]
  | cons a rest ih =>
    have ha : a.pidNo ≠ x.pidNo := by
      intro he
      exact hp (List.mem_map.mpr ⟨a, List.mem_cons_self a rest, he⟩)
    have hrest : x.pidNo ∉ rest.map Link.pidNo := by
      intro hm
      exact hp (by simpa using Or.inr hm)
    simp [removeFirstLink, ha, ih hrest]

theorem deleteChildrenPids_not_mem (c : ChildrenPids) (p : Nat)
    (hp : p ∉ livePids c) : deleteChildrenPids c p = (c, 0) := by
  unfold deleteChildrenPids
  rw [if_pos (inChildrenPids_zero c p hp)]

theorem deleteChildrenPids_mem (c : ChildrenPids) (p : Nat)
    (hc : c.size = c.list.length) (hp : p ∈ livePids c) :
    deleteChildrenPids c p =
      ({ size := c.size - 1, list := removeFirstLink c.list p }, 1) := by
  unfold deleteChildrenPids
  rw [inChildrenPids_one c p hc hp]
  simp

theorem consistent_add (c : ChildrenPids) (p : Nat) (cmd : CommandLine) (b : Nat)
    (hc : Consistent c) (hp : p ∉ livePids c) :
    Consistent (addChildrenPids c p cmd b) := by
  obtain ⟨hlen, hnd⟩ := hc
  constructor
  · rw [addChildrenPids_size, list_add c p cmd b hlen]
    simp [hlen]
  · rw [show livePids (addChildrenPids c p cmd b) = livePids c ++ [p] from
      livePids_add c p cmd b hlen]
    rw [List.nodup_append]
    refine ⟨hnd, List.nodup_singleton p, ?_⟩
    intro a ha hb
    rw [List.mem_singleton] at hb
    exact hp (hb ▸ ha)

theorem consistent_delete_mem (c : ChildrenPids) (p : Nat)
    (hc : Consistent c) (hp : p ∈ livePids c) :
    Consistent (deleteChildrenPids c p).1 ∧
      livePids (deleteChildrenPids c p).1 = (livePids c).erase p := by
  obtain ⟨hlen, hnd⟩ := hc
  rw [deleteChildrenPids_mem c p hlen hp]
  have hmap : livePids ({ size := c.size - 1, list := removeFirstLink c.list p } :
      ChildrenPids) = (livePids c).erase p := removeFirstLink_map c.list p
  refine ⟨⟨?_, ?_⟩, hmap⟩
  · show c.size - 1 = (removeFirstLink c.list p).length
    have h1 : ((livePids c).erase p).length = (livePids c).length - 1 :=
      List.length_erase_of_mem hp
    have h2 : (removeFirstLink c.list p).length = ((livePids c).erase p).length := by
      rw [← hmap]
      simp [livePids]
    have h3 : (livePids c).length = c.list.length := by simp [livePids]
    omega
  · rw [show livePids ({ size := c.size - 1, list := removeFirstLink c.list p } :
        ChildrenPids) = (livePids c).erase p from hmap]
    exact hnd.erase p

/-! ## Claim C4: totality and exclusivity of the decode function -/

/-- Claim C4: `decipherExitStatus` is total over the two termination
shapes and never reports both: every exited-shape descriptor with code
`c` (including `c = 0`) decodes to exactly `exited = 1, exitStatus = c,
signaled = 0`; every signaled-shape descriptor with signal `s` decodes
to exactly `signaled = 1, termSignal = s, exited = 0`; and no
descriptor of either shape yields `exited = 1` and `signaled = 1` at
once.  (The definition `decipherExitStatus` is the single decode
function of the file: both `mainStepExternal`, the foreground path, and
`checkLoop`, the background path, call it.) -/
theorem decipherExitStatus_total_two_shapes :
    (∀ (c : Nat) (info : ExitInfo), c ≤ 255 →
      decipherExitStatus (exitedWithCode c) info =
        { exited := 1, exitStatus := c, signaled := 0, termSignal := 0 }) ∧
    (∀ (s : Nat) (info : ExitInfo), 1 ≤ s → s ≤ 126 →
      decipherExitStatus (signaledWith s) info =
        { exited := 0, exitStatus := 0, signaled := 1, termSignal := s }) ∧
    (∀ (m : Nat) (info : ExitInfo),
      wifexited m = true ∨ wifsignaled m = true →
      ¬((decipherExitStatus m info).exited = 1 ∧
        (decipherExitStatus m info).signaled = 1)) := by
  refine ⟨?_, ?_, ?_⟩
  · intro c info hle
    have hex : wifexited (exitedWithCode c) = true := by
      simp only [wifexited, exitedWithCode, decide_eq_true_eq]
      omega
    unfold decipherExitStatus
    rw [if_pos hex]
    have : wexitstatus (exitedWithCode c) = c := by
      simp only [wexitstatus, exitedWithCode]
      omega
    rw [this]
  · intro s info h1 h2
    have hex : ¬(wifexited (signaledWith s) = true) := by
      simp only [wifexited, signaledWith, decide_eq_true_eq]
      omega
    have hsig : wifsignaled (signaledWith s) = true := by
      simp only [wifsignaled, signaledWith, decide_eq_true_eq]
      omega
    unfold decipherExitStatus
    rw [if_neg hex, if_pos hsig]
    have : wtermsig (signaledWith s) = s := by
      simp only [wtermsig, signaledWith]
      omega
    rw [this]
  · intro m info hshape
    unfold decipherExitStatus
    split
    · simp
    · split
      · simp
      · next hne hns =>
        rcases hshape with h | h
        · exact absurd h hne
        · exact absurd h hns

/-- Witness for C4: the code-0 exited shape decodes to `Exited 0`. -/
theorem decipherExitStatus_total_two_shapes_witness :
    decipherExitStatus (exitedWithCode 0)
        { exited := 0, exitStatus := 0, signaled := 0, termSignal := 0 } =
      { exited := 1, exitStatus := 0, signaled := 0, termSignal := 0 } :=
  decipherExitStatus_total_two_shapes.1 0
    { exited := 0, exitStatus := 0, signaled := 0, termSignal := 0 } (by decide)

/-! ## Claim C7: the mode flag is toggled only by the handler -/

/-- Claim C7: the mode flag changes only inside `parentCatchSIGTSTP`:
each delivered SIGTSTP flips it exactly once between 1 (background
allowed) and 0 (foreground only), writing exactly the corresponding one
of the two fixed notices; a flip from 1 yields 0 and a second delivery
restores 1; and the external-command step of the control loop
(`mainStepExternal`) never changes the flag. -/
theorem mode_flag_toggle_only_in_handler :
    parentCatchSIGTSTP 1 = (0, Notice.enterFgOnlyMode) ∧
    parentCatchSIGTSTP 0 = (1, Notice.exitFgOnlyMode) ∧
    (∀ b : Nat, b = 0 ∨ b = 1 →
      (parentCatchSIGTSTP (parentCatchSIGTSTP b).1).1 = b) ∧
    (∀ (bgAllowed : Nat) (commands : CommandLine)
      (spawnPid childExitMethod : Nat) (children : ChildrenPids)
      (lastFG : Nat) (info : ExitInfo),
      (mainStepExternal bgAllowed commands spawnPid childExitMethod children
        lastFG info).bgAllowed = bgAllowed) := by
  refine ⟨rfl, rfl, ?_, ?_⟩
  · rintro b (rfl | rfl) <;> rfl
  · intro bgAllowed commands spawnPid childExitMethod children lastFG info
    simp only [mainStepExternal]
    repeat' split
    all_goals rfl

/-- Witness for C7: two toggles starting from background-allowed return
the flag to background-allowed. -/
theorem mode_flag_toggle_only_in_handler_witness :
    (parentCatchSIGTSTP (parentCatchSIGTSTP 1).1).1 = 1 :=
  mode_flag_toggle_only_in_handler.2.2.1 1 (Or.inr rfl)

/-! ## Claim C9: the argument vector is always null-terminated -/

/-- The invariant `initCommandLine`/`addCommandLine` maintain on the
argument vector: the stored strings occupy a strict front portion of
the allocated block and every cell from index `size` on is NULL. -/
def ArgvInv (r : CommandLine) : Prop :=
  r.size < r.capacity ∧ r.arr.length = r.capacity ∧
    ∀ i, r.size ≤ i → i < r.capacity → r.arr[i]? = some none

theorem argvInv_init (capacity : Nat) (h : 1 ≤ capacity) :
    ArgvInv (initCommandLine capacity) := by
  refine ⟨h, by simp [initCommandLine], ?_⟩
  intro i _ hi
  simp only [initCommandLine] at hi
  simp [initCommandLine, List.getElem?_replicate, hi]

theorem argvInv_add (r : CommandLine) (str : String) (h : ArgvInv r) :
    ArgvInv (addCommandLine r str) := by
  obtain ⟨hsz, hlen, hnull⟩ := h
  unfold addCommandLine
  by_cases hg : r.size = r.capacity - 1
  · rw [if_pos hg]
    have hcap1 : 1 ≤ r.capacity := by omega
    have htake : (r.arr.take r.size).length = r.size := by
      rw [List.length_take]
      omega
    have hlen2 : (r.arr.take r.size ++
        List.replicate (2 * r.capacity - r.size) none).length = 2 * r.capacity := by
      rw [List.length_append, htake, List.length_replicate]
      omega
    refine ⟨by dsimp; omega, by dsimp; rw [List.length_set, hlen2], ?_⟩
    intro i hi1 hi2
    dsimp at hi1 hi2 ⊢
    rw [List.getElem?_set_ne (by omega)]
    rw [List.getElem?_append_right (by omega)]
    rw [htake, List.getElem?_replicate]
    rw [if_pos (by omega)]
  · rw [if_neg hg]
    refine ⟨by dsimp; omega, by dsimp; rw [List.length_set, hlen], ?_⟩
    intro i hi1 hi2
    dsimp at hi1 hi2 ⊢
    rw [List.getElem?_set_ne (by omega)]
    exact hnull i (by omega) hi2

theorem argvInv_foldl (strs : List String) (r : CommandLine) (h : ArgvInv r) :
    ArgvInv (strs.foldl addCommandLine r) := by
  induction strs generalizing r with
  | nil => exact h
  | cons s rest ih => exact ih _ (argvInv_add r s h)

/-- Claim C9: for every CommandLine built by `initCommandLine` (with a
positive capacity; the source always uses 10) followed by any sequence
of `addCommandLine` calls, the argument array has a NULL entry at index
`size`, so the vector handed to `execvp` is always null-terminated. -/
theorem commandline_argv_null_terminated (capacity : Nat) (h : 1 ≤ capacity)
    (strs : List String) :
    ((strs.foldl addCommandLine (initCommandLine capacity)).arr)[
      (strs.foldl addCommandLine (initCommandLine capacity)).size]? =
      some none := by
  have hinv := argvInv_foldl strs _ (argvInv_init capacity h)
  exact hinv.2.2 _ (le_refl _) hinv.1

/-- Witness for C9: a two-argument command built at the source's
capacity 10 has a NULL at index 2. -/
theorem commandline_argv_null_terminated_witness :
    (((["ls", "-l"].foldl addCommandLine (initCommandLine 10)).arr)[
      (["ls", "-l"].foldl addCommandLine (initCommandLine 10)).size]? =
      some none) :=
  commandline_argv_null_terminated 10 (by decide) ["ls", "-l"]

/-! ## Claim C6: the add/remove algebra of the registry -/

theorem runOps_spec (ops : List RegOp) :
    ∀ c : ChildrenPids, Consistent c → (livePids c ++ addPids ops).Nodup →
      Consistent (runOps c ops) ∧
      (runOps c ops).size + (removedPids c ops).length =
        c.size + (addPids ops).length ∧
      ∀ id : Nat, id ∈ livePids (runOps c ops) ↔
        ((id ∈ livePids c ∨ id ∈ addPids ops) ∧ id ∉ removedPids c ops) := by
  induction ops with
  | nil =>
    intro c hc _
    refine ⟨hc, by simp [runOps, removedPids, addPids], ?_⟩
    intro id
    simp [runOps, removedPids, addPids]
  | cons op rest ih =>
    intro c hc hdist
    cases op with
    | add p cmd b =>
      have hlen := hc.1
      simp only [addPids] at hdist
      have hpfresh : p ∉ livePids c := by
        rw [List.nodup_append] at hdist
        intro hmem
        exact hdist.2.2 hmem (List.mem_cons_self p _)
      have hc1 : Consistent (addChildrenPids c p cmd b) :=
        consistent_add c p cmd b hc hpfresh
      have hdist1 : (livePids (addChildrenPids c p cmd b) ++ addPids rest).Nodup := by
        rw [livePids_add c p cmd b hlen, List.append_assoc]
        exact hdist
      obtain ⟨h1, h2, h3⟩ := ih (addChildrenPids c p cmd b) hc1 hdist1
      refine ⟨h1, ?_, ?_⟩
      · simp only [runOps, removedPids, addPids, List.length_cons]
        rw [addChildrenPids_size] at h2
        omega
      · intro id
        simp only [runOps, removedPids, addPids]
        rw [h3 id, livePids_add c p cmd b hlen]
        simp only [List.mem_append, List.mem_cons, List.mem_singleton]
        tauto
    | remove p =>
      have hlen := hc.1
      have hnd := hc.2
      simp only [addPids] at hdist
      by_cases hp : p ∈ livePids c
      · have hdel := deleteChildrenPids_mem c p hlen hp
        have h1del : (deleteChildrenPids c p).1 =
            { size := c.size - 1, list := removeFirstLink c.list p } := by rw [hdel]
        have h2del : (deleteChildrenPids c p).2 = 1 := by rw [hdel]
        have hcd := consistent_delete_mem c p hc hp
        have hsize1 : (deleteChildrenPids c p).1.size = c.size - 1 := by rw [h1del]
        have hpos : 1 ≤ c.size := by
          rw [hlen]
          rcases List.mem_map.mp hp with ⟨l, hl, _⟩
          exact List.length_pos.mpr (List.ne_nil_of_mem hl)
        have hdist1 : (livePids (deleteChildrenPids c p).1 ++ addPids rest).Nodup := by
          have hsub : List.Sublist (livePids (deleteChildrenPids c p).1) (livePids c) := by
            rw [hcd.2]
            exact List.erase_sublist p (livePids c)
          exact List.Nodup.sublist (hsub.append (List.Sublist.refl _)) hdist
        obtain ⟨h1, h2, h3⟩ := ih (deleteChildrenPids c p).1 hcd.1 hdist1
        refine ⟨h1, ?_, ?_⟩
        · simp only [runOps, removedPids, addPids, h2del, if_pos, List.length_cons]
          omega
        · intro id
          simp only [runOps, removedPids, addPids, h2del, if_pos]
          rw [h3 id, hcd.2]
          by_cases hid : id = p
          · subst hid
            have h4 : id ∉ (livePids c).erase id := hnd.not_mem_erase
            have h5 : id ∉ addPids rest := by
              rw [List.nodup_append] at hdist
              exact fun hm => hdist.2.2 hp hm
            simp [h4, h5]
          · have h4 : id ∈ (livePids c).erase p ↔ id ∈ livePids c :=
              List.mem_erase_of_ne hid
            simp only [h4, List.mem_cons]
            constructor
            · rintro ⟨hin, hout⟩
              exact ⟨hin, fun hor => by rcases hor with h | h; exact hid h; exact hout h⟩
            · rintro ⟨hin, hout⟩
              exact ⟨hin, fun hm => hout (Or.inr hm)⟩
      · have hdel := deleteChildrenPids_not_mem c p hp
        have h1del : (deleteChildrenPids c p).1 = c := by rw [hdel]
        have h2del : (deleteChildrenPids c p).2 = 0 := by rw [hdel]
        obtain ⟨h1, h2, h3⟩ := ih c hc hdist
        refine ⟨?_, ?_, ?_⟩
        · simpa only [runOps, h1del] using h1
        · simp only [runOps, removedPids, addPids, h1del, h2del]
          norm_num
          omega
        · intro id
          simp only [runOps, removedPids, addPids, h1del, h2del]
          norm_num
          exact h3 id

/-- Claim C6: for every sequence of add/remove operations with distinct
added identifiers, run against the empty registry: the final `size`
equals the number of adds minus the number of successful removes; every
identifier with a successful remove is no longer contained; every
identifier added but never successfully removed is still contained; and
`deleteChildrenPids` returns 1 exactly when a matching record exists
(removing it), returning 0 and leaving the registry unchanged
otherwise. -/
theorem registry_add_remove_algebra (ops : List RegOp)
    (hdist : (addPids ops).Nodup) :
    ((runOps initChildrenPids ops).size +
        (removedPids initChildrenPids ops).length = (addPids ops).length) ∧
    (∀ id : Nat, id ∈ removedPids initChildrenPids ops →
      inChildrenPids (runOps initChildrenPids ops) id = 0) ∧
    (∀ id : Nat, id ∈ addPids ops → id ∉ removedPids initChildrenPids ops →
      inChildrenPids (runOps initChildrenPids ops) id = 1) ∧
    (∀ (c : ChildrenPids) (id : Nat), Consistent c →
      ((deleteChildrenPids c id).2 = 1 ↔ id ∈ livePids c) ∧
      (id ∉ livePids c → deleteChildrenPids c id = (c, 0))) := by
  have hinit : Consistent initChildrenPids := ⟨rfl, List.nodup_nil⟩
  have hdist0 : (livePids initChildrenPids ++ addPids ops).Nodup := by
    simpa [initChildrenPids, livePids] using hdist
  obtain ⟨h1, h2, h3⟩ := runOps_spec ops initChildrenPids hinit hdist0
  refine ⟨?_, ?_, ?_, ?_⟩
  · simpa [initChildrenPids] using h2
  · intro id hid
    apply inChildrenPids_zero
    intro hmem
    exact ((h3 id).mp hmem).2 hid
  · intro id hadd hnrem
    apply inChildrenPids_one _ _ h1.1
    exact (h3 id).mpr ⟨Or.inr hadd, hnrem⟩
  · intro c id hc
    constructor
    · constructor
      · intro hone
        by_contra hmem
        have := deleteChildrenPids_not_mem c id hmem
        rw [this] at hone
        simp at hone
      · intro hmem
        rw [deleteChildrenPids_mem c id hc.1 hmem]
    · exact deleteChildrenPids_not_mem c id

/-- Witness for C6: the sequence add 1, add 2, remove 1 leaves a
registry of size 1 that contains 2 but not 1. -/
theorem registry_add_remove_algebra_witness :
    inChildrenPids
        (runOps initChildrenPids
          [RegOp.add 1 (initCommandLine 10) 0, RegOp.add 2 (initCommandLine 10) 0,
            RegOp.remove 1])
        2 = 1 :=
  (registry_add_remove_algebra
      [RegOp.add 1 (initCommandLine 10) 0, RegOp.add 2 (initCommandLine 10) 0,
        RegOp.remove 1] (by decide)).2.2.1 2 (by decide) (by decide)

/-! ## Claim C1: effective background flag -/

/-- Claim C1: for an external command (after a successful fork, below
the capacity bound), the effective background flag equals
`backgroundRequested AND BGAllowed == 1`: the started notice is emitted
and the loop proceeds without waiting exactly when both hold, and a
background-requested command under `BGAllowed == 0` performs the full
foreground wait. -/
theorem effective_background_resolution (bgAllowed : Nat)
    (commands : CommandLine) (spawnPid childExitMethod : Nat)
    (children : ChildrenPids) (lastFG : Nat) (info : ExitInfo)
    (hbg : commands.bg = 0 ∨ commands.bg = 1)
    (hba : bgAllowed = 0 ∨ bgAllowed = 1)
    (habort : children.size + 1 ≠ MAXCHILDREN) :
    ((Notice.bgStarts spawnPid ∈
        (mainStepExternal bgAllowed commands spawnPid childExitMethod children
          lastFG info).notices ∧
      (mainStepExternal bgAllowed commands spawnPid childExitMethod children
          lastFG info).events = []) ↔
      (commands.bg = 1 ∧ bgAllowed = 1)) ∧
    (commands.bg = 1 → bgAllowed = 0 →
      (mainStepExternal bgAllowed commands spawnPid childExitMethod children
          lastFG info).events =
        [Event.blockSIGTSTP, Event.waitpidCall spawnPid, Event.unblockSIGTSTP]) := by
  rcases hbg with hb | hb <;> rcases hba with ha | ha <;>
    simp [mainStepExternal, addChildrenPids_size, habort, hb, ha]

/-- Witness for C1: a background-requested command in background-allowed
mode gets the started notice and no wait; instantiated from the claim
theorem. -/
theorem effective_background_resolution_witness :
    ((Notice.bgStarts 7 ∈
        (mainStepExternal 1
          { capacity := 10, size := 0, bg := 1, inputFile := none,
            outputFile := none, arr := List.replicate 10 none } 7 0
          initChildrenPids 0
          { exited := 0, exitStatus := 0, signaled := 0, termSignal := 0 }).notices ∧
      (mainStepExternal 1
          { capacity := 10, size := 0, bg := 1, inputFile := none,
            outputFile := none, arr := List.replicate 10 none } 7 0
          initChildrenPids 0
          { exited := 0, exitStatus := 0, signaled := 0, termSignal := 0 }).events = []) ↔
      (({ capacity := 10, size := 0, bg := 1, inputFile := none,
            outputFile := none, arr := List.replicate 10 none } : CommandLine).bg = 1 ∧
        (1 : Nat) = 1)) ∧
    (({ capacity := 10, size := 0, bg := 1, inputFile := none,
          outputFile := none, arr := List.replicate 10 none } : CommandLine).bg = 1 →
      (1 : Nat) = 0 →
      (mainStepExternal 1
          { capacity := 10, size := 0, bg := 1, inputFile := none,
            outputFile := none, arr := List.replicate 10 none } 7 0
          initChildrenPids 0
          { exited := 0, exitStatus := 0, signaled := 0, termSignal := 0 }).events =
        [Event.blockSIGTSTP, Event.waitpidCall 7, Event.unblockSIGTSTP]) :=
  effective_background_resolution 1
    { capacity := 10, size := 0, bg := 1, inputFile := none,
      outputFile := none, arr := List.replicate 10 none } 7 0
    initChildrenPids 0
    { exited := 0, exitStatus := 0, signaled := 0, termSignal := 0 }
    (Or.inr rfl) (Or.inr rfl) (by decide)

/-! ## Claim C5: the foreground wait protocol -/

/-- Claim C5: a foreground dispatch blocks SIGTSTP, waits on the
specific child, unblocks SIGTSTP (in that order), removes the child
from the registry (which afterwards no longer contains it and equals
its pre-dispatch state), stores the observed termination descriptor as
the last foreground status, and, if the child was terminated by a
signal, emits the notice naming the pid and the signal number. -/
theorem foreground_wait_protocol (bgAllowed : Nat) (commands : CommandLine)
    (spawnPid childExitMethod : Nat) (children : ChildrenPids) (lastFG : Nat)
    (info : ExitInfo)
    (hfg : commands.bg = 0 ∨ bgAllowed = 0)
    (habort : children.size + 1 ≠ MAXCHILDREN)
    (hfresh : spawnPid ∉ livePids children)
    (hc : Consistent children) :
    (mainStepExternal bgAllowed commands spawnPid childExitMethod children
        lastFG info).events =
      [Event.blockSIGTSTP, Event.waitpidCall spawnPid, Event.unblockSIGTSTP] ∧
    (mainStepExternal bgAllowed commands spawnPid childExitMethod children
        lastFG info).children = children ∧
    inChildrenPids
      (mainStepExternal bgAllowed commands spawnPid childExitMethod children
        lastFG info).children spawnPid = 0 ∧
    (mainStepExternal bgAllowed commands spawnPid childExitMethod children
        lastFG info).lastFGExitMethod = childExitMethod ∧
    (wifexited childExitMethod = false → wifsignaled childExitMethod = true →
      (mainStepExternal bgAllowed commands spawnPid childExitMethod children
          lastFG info).notices =
        [Notice.fgTerminatedBySignal spawnPid (wtermsig childExitMethod)]) := by
  obtain ⟨cmdv, hcmdv, hbgv⟩ : ∃ cmdv : CommandLine,
      (if bgAllowed = 0 then { commands with bg := 0 } else commands) = cmdv ∧
        cmdv.bg = 0 := by
    rcases hfg with h | h
    · by_cases h0 : bgAllowed = 0
      · exact ⟨_, rfl, by simp [h0]⟩
      · exact ⟨_, rfl, by simp [h0, h]⟩
    · exact ⟨_, rfl, by simp [h]⟩
  have hc1 : Consistent (addChildrenPids children spawnPid cmdv cmdv.bg) :=
    consistent_add children spawnPid cmdv cmdv.bg hc hfresh
  have hmem1 : spawnPid ∈ livePids (addChildrenPids children spawnPid cmdv cmdv.bg) := by
    rw [livePids_add children spawnPid cmdv cmdv.bg hc.1]
    simp
  have hdel := deleteChildrenPids_mem
    (addChildrenPids children spawnPid cmdv cmdv.bg) spawnPid hc1.1 hmem1
  have hlist1 : (addChildrenPids children spawnPid cmdv cmdv.bg).list =
      children.list ++ [⟨spawnPid, cmdv, cmdv.bg⟩] :=
    list_add children spawnPid cmdv cmdv.bg hc.1
  have hchildren2 :
      (deleteChildrenPids (addChildrenPids children spawnPid cmdv cmdv.bg)
        spawnPid).1 = children := by
    rw [hdel]
    have hrm : removeFirstLink
        ((addChildrenPids children spawnPid cmdv cmdv.bg).list) spawnPid =
        children.list := by
      rw [hlist1]
      exact removeFirstLink_append_fresh children.list ⟨spawnPid, cmdv, cmdv.bg⟩ hfresh
    rw [addChildrenPids_size, hrm]
    rfl
  rw [hbgv] at hchildren2
  simp only [mainStepExternal, hcmdv, addChildrenPids_size, hbgv]
  rw [if_neg habort]
  norm_num
  rw [hchildren2]
  refine ⟨rfl, inChildrenPids_zero children spawnPid hfresh, ?_⟩
  intro hex hsig
  have hinfo1 : decipherExitStatus childExitMethod info =
      { exited := 0, exitStatus := 0, signaled := 1,
        termSignal := wtermsig childExitMethod } := by
    unfold decipherExitStatus
    rw [hex, hsig]
    simp
  rw [hinfo1]
  simp

/-- Witness for C5: a foreground command whose child is killed by
signal 9; instantiated from the claim theorem. -/
theorem foreground_wait_protocol_witness :
    (mainStepExternal 1 (initCommandLine 10) 7 9 initChildrenPids 0
        { exited := 0, exitStatus := 0, signaled := 0, termSignal := 0 }).events =
      [Event.blockSIGTSTP, Event.waitpidCall 7, Event.unblockSIGTSTP] ∧
    (mainStepExternal 1 (initCommandLine 10) 7 9 initChildrenPids 0
        { exited := 0, exitStatus := 0, signaled := 0, termSignal := 0 }).children =
      initChildrenPids ∧
    inChildrenPids
      (mainStepExternal 1 (initCommandLine 10) 7 9 initChildrenPids 0
        { exited := 0, exitStatus := 0, signaled := 0, termSignal := 0 }).children 7 = 0 ∧
    (mainStepExternal 1 (initCommandLine 10) 7 9 initChildrenPids 0
        { exited := 0, exitStatus := 0, signaled := 0, termSignal := 0 }).lastFGExitMethod =
      9 ∧
    (wifexited 9 = false → wifsignaled 9 = true →
      (mainStepExternal 1 (initCommandLine 10) 7 9 initChildrenPids 0
          { exited := 0, exitStatus := 0, signaled := 0, termSignal := 0 }).notices =
        [Notice.fgTerminatedBySignal 7 (wtermsig 9)]) :=
  foreground_wait_protocol 1 (initCommandLine 10) 7 9 initChildrenPids 0
    { exited := 0, exitStatus := 0, signaled := 0, termSignal := 0 }
    (Or.inl rfl) (by decide) (by simp [livePids, initChildrenPids]) ⟨rfl, List.nodup_nil⟩

/-! ## Claim C2: the background sweep at a two-finished-children registry

The C for-loop bound `i < children->size` re-reads the size field that
`deleteChildrenPids` decrements, so after the first finished child is
reaped the loop stops before checking the rest of the snapshot. -/

/-- Claim C2 is refuted on the code: with registry `[pid 1, pid 2]` and
both children already finished (`waitpid` reporting exit status 0 for
every pid), one sweep reaps and reports only pid 1.  Pid 2 is in the
snapshot and its check would report a finished child, yet it stays in
the registry and receives no notice, because deleting pid 1 shrinks
`children->size` to 1 and the loop exits at `i = 1`. -/
theorem background_sweep_misses_second_finished_child :
    checkBGChildren (fun _ => some 0)
        { size := 2,
          list := [⟨1, initCommandLine 10, 0⟩, ⟨2, initCommandLine 10, 0⟩] }
        { exited := 0, exitStatus := 0, signaled := 0, termSignal := 0 } =
      ({ size := 1, list := [⟨2, initCommandLine 10, 0⟩] },
        [Notice.bgFinished 1, Notice.exitValueZero]) ∧
    2 ∈ livePids (checkBGChildren (fun _ => some 0)
        { size := 2,
          list := [⟨1, initCommandLine 10, 0⟩, ⟨2, initCommandLine 10, 0⟩] }
        { exited := 0, exitStatus := 0, signaled := 0, termSignal := 0 }).1 ∧
    Notice.bgFinished 2 ∉ (checkBGChildren (fun _ => some 0)
        { size := 2,
          list := [⟨1, initCommandLine 10, 0⟩, ⟨2, initCommandLine 10, 0⟩] }
        { exited := 0, exitStatus := 0, signaled := 0, termSignal := 0 }).2 := by
  refine ⟨by decide, by decide, by decide⟩

/-! ## Claim C3: the builtIn flag of registered records -/

/-- Claim C3 is refuted on the code: line 852 passes `commands->bg` as
the `builtIn` argument of `addChildrenPids`, so a background command
(bg = 1) dispatched in background-allowed mode is registered with
`builtIn = 1`, not the always-false value the claim states. -/
theorem background_registration_builtin_flag :
    ((mainStepExternal 1
        { capacity := 10, size := 0, bg := 1, inputFile := none,
          outputFile := none, arr := List.replicate 10 none } 7 0
        initChildrenPids 0
        { exited := 0, exitStatus := 0, signaled := 0, termSignal := 0 }).children.list.map
      Link.builtIn) = [1] := by
  decide

/-! ## Claims C8 and C10: the shutdown protocol -/

theorem deleteChildrenPids_head (c : ChildrenPids) (l : Link) (rest : List Link)
    (hc : Consistent c) (hl : c.list = l :: rest) :
    deleteChildrenPids c l.pidNo = ({ size := c.size - 1, list := rest }, 1) := by
  have hmem : l.pidNo ∈ livePids c := by
    rw [livePids, hl]
    simp
  rw [deleteChildrenPids_mem c l.pidNo hc.1 hmem]
  rw [hl]
  simp [removeFirstLink]

theorem consistent_tail (c : ChildrenPids) (l : Link) (rest : List Link)
    (hc : Consistent c) (hl : c.list = l :: rest) :
    Consistent { size := c.size - 1, list := rest } := by
  obtain ⟨hlen, hnd⟩ := hc
  constructor
  · show c.size - 1 = rest.length
    rw [hlen, hl]
    simp
  · show (rest.map Link.pidNo).Nodup
    rw [livePids, hl] at hnd
    exact (List.nodup_cons.mp hnd).2

theorem exitLoop_all_success (killOk : Nat → Bool) (hk : ∀ p, killOk p = true) :
    ∀ (fuel : Nat) (c : ChildrenPids) (acc : List Notice), Consistent c →
      c.size ≤ fuel →
      exitLoop killOk fuel c acc =
        ({ size := 0, list := [] }, acc ++ successNotices (livePids c)) := by
  intro fuel
  induction fuel with
  | zero =>
    intro c acc hc hle
    have h0 : c.size = 0 := Nat.le_zero.mp hle
    have hnil : c.list = [] := List.length_eq_zero.mp (hc.1.symm.trans h0)
    show (c, acc) = _
    rw [show c = { size := 0, list := [] } by
      cases c with
      | mk s ll => simp at h0 hnil; rw [h0, hnil]]
    simp [livePids, successNotices]
  | succ n ih =>
    intro c acc hc hle
    by_cases h0 : c.size = 0
    · have hnil : c.list = [] := List.length_eq_zero.mp (hc.1.symm.trans h0)
      unfold exitLoop
      rw [if_pos h0]
      rw [show c = { size := 0, list := [] } by
        cases c with
        | mk s ll => simp at h0 hnil; rw [h0, hnil]]
      simp [livePids, successNotices]
    · rcases hl : c.list with _ | ⟨l, rest⟩
      · exact absurd (hc.1.trans (by rw [hl]; rfl)) h0
      · unfold exitLoop
        rw [if_neg h0, hl]
        simp only [hk l.pidNo, if_true]
        rw [deleteChildrenPids_head c l rest hc hl]
        have htail : Consistent ({ size := c.size - 1, list := rest } : ChildrenPids) :=
          consistent_tail c l rest hc hl
        have hlef : ({ size := c.size - 1, list := rest } : ChildrenPids).size ≤ n := by
          show c.size - 1 ≤ n
          omega
        norm_num
        rw [ih { size := c.size - 1, list := rest }
          (acc ++ [Notice.procTerminatedBySIGTERM l.pidNo, Notice.errorDeleting])
          htail hlef]
        simp only [livePids]
        rw [hl]
        simp [successNotices, List.append_assoc]

theorem countP_successNotices (pids : List Nat) :
    (successNotices pids).countP isSuccessNotice = pids.length := by
  induction pids with
  | nil => rfl
  | cons p rest ih =>
    simp [successNotices, List.countP_cons, isSuccessNotice, ih]

theorem exitLoop_attempts_le (killOk : Nat → Bool) :
    ∀ (fuel : Nat) (c : ChildrenPids) (acc : List Notice),
      ((exitLoop killOk fuel c acc).2.countP isAttemptNotice) ≤
        fuel + acc.countP isAttemptNotice := by
  intro fuel
  induction fuel with
  | zero =>
    intro c acc
    show acc.countP isAttemptNotice ≤ 0 + acc.countP isAttemptNotice
    omega
  | succ n ih =>
    intro c acc
    by_cases h0 : c.size = 0
    · unfold exitLoop
      rw [if_pos h0]
      show acc.countP isAttemptNotice ≤ n + 1 + acc.countP isAttemptNotice
      omega
    · rcases hl : c.list with _ | ⟨l, rest⟩
      · unfold exitLoop
        rw [if_neg h0, hl]
        show acc.countP isAttemptNotice ≤ n + 1 + acc.countP isAttemptNotice
        omega
      · unfold exitLoop
        rw [if_neg h0, hl]
        by_cases hkill : killOk l.pidNo = true
        · simp only [hkill, if_true]
          refine le_trans (ih _ _) ?_
          rw [List.countP_append]
          have hdn : isAttemptNotice
              (if (deleteChildrenPids c l.pidNo).2 = 0 then Notice.sucessfullyDeleted
                else Notice.errorDeleting) = false := by
            split <;> rfl
          rw [List.countP_cons, List.countP_cons, List.countP_nil, hdn]
          simp [isAttemptNotice]
          omega
        · simp only [hkill]
          refine le_trans (ih _ _) ?_
          rw [List.countP_append]
          simp [List.countP_cons, isAttemptNotice]
          omega

/-- Claim C8: the shutdown protocol takes the first registry entry,
sends it SIGTERM, and on success removes it and emits a confirmation
notice naming its pid; on failure it emits a failure notice, leaves the
registry unchanged and continues; and it makes at most 50 attempts.
When every entry accepts the termination request (and at most 50 are
live, in particular in the 3-entry scenario), the final registry is
empty and the confirmation notices name exactly the live pids, one
success notice per entry. -/
theorem shutdown_protocol_behavior (killOk : Nat → Bool) (c : ChildrenPids)
    (hc : Consistent c) :
    ((∀ p, killOk p = true) → c.size ≤ 50 →
      exitHandle killOk c =
        ({ size := 0, list := [] }, successNotices (livePids c)) ∧
      (exitHandle killOk c).2.countP isSuccessNotice = c.size) ∧
    (∀ (fuel : Nat) (l : Link) (rest : List Link) (acc : List Notice),
      c.list = l :: rest → killOk l.pidNo = false →
      exitLoop killOk (fuel + 1) c acc =
        exitLoop killOk fuel c (acc ++ [Notice.exitFailure])) ∧
    ((exitHandle killOk c).2.countP isAttemptNotice ≤ 50) := by
  refine ⟨?_, ?_, ?_⟩
  · intro hk hle
    have h := exitLoop_all_success killOk hk 50 c [] hc hle
    have heq : exitHandle killOk c =
        ({ size := 0, list := [] }, successNotices (livePids c)) := by
      rw [exitHandle, h]
      simp
    refine ⟨heq, ?_⟩
    rw [heq]
    show (successNotices (livePids c)).countP isSuccessNotice = c.size
    rw [countP_successNotices]
    show (c.list.map Link.pidNo).length = c.size
    rw [List.length_map, hc.1]
  · intro fuel l rest acc hl hkf
    have h0 : ¬ c.size = 0 := by
      rw [hc.1, hl]
      simp
    conv_lhs => rw [exitLoop]
    rw [if_neg h0, hl]
    simp [hkf]
  · have h := exitLoop_attempts_le killOk 50 c []
    simpa [exitHandle] using h

/-- Witness for C8: three live entries, all accepting SIGTERM: the
registry drains to size 0 with exactly 3 success notices. -/
theorem shutdown_protocol_behavior_witness :
    exitHandle (fun _ => true)
        { size := 3,
          list := [⟨11, initCommandLine 10, 0⟩, ⟨12, initCommandLine 10, 0⟩,
            ⟨13, initCommandLine 10, 0⟩] } =
      ({ size := 0, list := [] },
        successNotices (livePids
          { size := 3,
            list := [⟨11, initCommandLine 10, 0⟩, ⟨12, initCommandLine 10, 0⟩,
              ⟨13, initCommandLine 10, 0⟩] })) ∧
    (exitHandle (fun _ => true)
        { size := 3,
          list := [⟨11, initCommandLine 10, 0⟩, ⟨12, initCommandLine 10, 0⟩,
            ⟨13, initCommandLine 10, 0⟩] }).2.countP isSuccessNotice = 3 :=
  (shutdown_protocol_behavior (fun _ => true)
      { size := 3,
        list := [⟨11, initCommandLine 10, 0⟩, ⟨12, initCommandLine 10, 0⟩,
          ⟨13, initCommandLine 10, 0⟩] }
      (by constructor <;> decide)).1 (fun _ => rfl) (by decide)

theorem exitLoop_delete_inversion (killOk : Nat → Bool) :
    ∀ (fuel : Nat) (c : ChildrenPids) (acc : List Notice), Consistent c →
      (Notice.sucessfullyDeleted ∈ (exitLoop killOk fuel c acc).2 →
        Notice.sucessfullyDeleted ∈ acc) ∧
      ((exitLoop killOk fuel c acc).2.countP isErrorDeletingNotice +
          acc.countP isSuccessNotice =
        (exitLoop killOk fuel c acc).2.countP isSuccessNotice +
          acc.countP isErrorDeletingNotice) := by
  intro fuel
  induction fuel with
  | zero =>
    intro c acc _
    refine ⟨fun h => h, ?_⟩
    show acc.countP isErrorDeletingNotice + acc.countP isSuccessNotice =
      acc.countP isSuccessNotice + acc.countP isErrorDeletingNotice
    omega
  | succ n ih =>
    intro c acc hc
    by_cases h0 : c.size = 0
    · unfold exitLoop
      rw [if_pos h0]
      refine ⟨fun h => h, ?_⟩
      show acc.countP isErrorDeletingNotice + acc.countP isSuccessNotice =
        acc.countP isSuccessNotice + acc.countP isErrorDeletingNotice
      omega
    · rcases hl : c.list with _ | ⟨l, rest⟩
      · exact absurd (hc.1.trans (by rw [hl]; rfl)) h0
      · unfold exitLoop
        rw [if_neg h0, hl]
        by_cases hkill : killOk l.pidNo = true
        · simp only [hkill, if_true]
          rw [deleteChildrenPids_head c l rest hc hl]
          norm_num
          have htail : Consistent ({ size := c.size - 1, list := rest } : ChildrenPids) :=
            consistent_tail c l rest hc hl
          obtain ⟨ihm, ihc⟩ := ih { size := c.size - 1, list := rest }
            (acc ++ [Notice.procTerminatedBySIGTERM l.pidNo, Notice.errorDeleting]) htail
          refine ⟨?_, ?_⟩
          · intro hin
            have := ihm hin
            rw [List.mem_append] at this
            rcases this with h | h
            · exact h
            · simp at h
          · rw [List.countP_append, List.countP_append] at ihc
            simp [List.countP_cons, isSuccessNotice, isErrorDeletingNotice] at ihc
            omega
        · simp only [hkill]
          norm_num
          obtain ⟨ihm, ihc⟩ := ih c (acc ++ [Notice.exitFailure]) hc
          refine ⟨?_, ?_⟩
          · intro hin
            have := ihm hin
            rw [List.mem_append] at this
            rcases this with h | h
            · exact h
            · simp at h
          · rw [List.countP_append, List.countP_append] at ihc
            simp [List.countP_cons, isSuccessNotice, isErrorDeletingNotice] at ihc
            omega

/-- Claim C10: in the shutdown loop, after a successful SIGTERM to the
head of a consistent non-empty registry the remove always returns 1, so
the branch printing the "Sucessfully deleted" notice (which runs when
the remove reports no match) is unreachable, and the "Error deleting"
notice is the one printed after every successful removal — exactly as
often as the SIGTERM confirmation notice. -/
theorem shutdown_delete_always_succeeds (killOk : Nat → Bool) (c : ChildrenPids)
    (hc : Consistent c) :
    (∀ (l : Link) (rest : List Link), c.list = l :: rest →
      (deleteChildrenPids c l.pidNo).2 = 1) ∧
    Notice.sucessfullyDeleted ∉ (exitHandle killOk c).2 ∧
    (exitHandle killOk c).2.countP isErrorDeletingNotice =
      (exitHandle killOk c).2.countP isSuccessNotice := by
  obtain ⟨hmem, hcnt⟩ := exitLoop_delete_inversion killOk 50 c [] hc
  refine ⟨?_, ?_, ?_⟩
  · intro l rest hl
    rw [deleteChildrenPids_head c l rest hc hl]
  · intro hin
    exact absurd (hmem hin) (List.not_mem_nil _)
  · simpa [exitHandle] using hcnt

/-- Witness for C10: a single live entry accepting SIGTERM never
produces the "Sucessfully deleted" notice. -/
theorem shutdown_delete_always_succeeds_witness :
    (∀ (l : Link) (rest : List Link),
      ({ size := 1, list := [⟨5, initCommandLine 10, 0⟩] } : ChildrenPids).list =
        l :: rest →
      (deleteChildrenPids
        { size := 1, list := [⟨5, initCommandLine 10, 0⟩] } l.pidNo).2 = 1) ∧
    Notice.sucessfullyDeleted ∉
      (exitHandle (fun _ => true)
        { size := 1, list := [⟨5, initCommandLine 10, 0⟩] }).2 ∧
    (exitHandle (fun _ => true)
        { size := 1, list := [⟨5, initCommandLine 10, 0⟩] }).2.countP
        isErrorDeletingNotice =
      (exitHandle (fun _ => true)
        { size := 1, list := [⟨5, initCommandLine 10, 0⟩] }).2.countP
        isSuccessNotice :=
  shutdown_delete_always_succeeds (fun _ => true)
    { size := 1, list := [⟨5, initCommandLine 10, 0⟩] }
    (by constructor <;> decide)

end Smallsh
